import Mathlib

/-!
Pseudo-node identifiers and endpoint classification (`render/id.go`).

A shallow embedding of `render/id.go` and the properties of it.

Go strings are immutable byte sequences, so a string is a `List UInt8` here
and a string literal of the source is written `lit "..."` (its UTF-8 bytes).
Slicing `s[:i]` is `List.take`, `s[i:]` is `List.drop`.
-/

namespace Render

/-! ## Strings -/

/-- A Go `string`: a sequence of bytes. -/
abbrev GoString := List UInt8

/-- The bytes of a string literal of the source (UTF-8). -/
def lit (s : String) : GoString := s.toUTF8.data.toList

/-- The byte `':'`. -/
abbrev colon : UInt8 := 58

/-- Loop of `strings.Index`: the first offset, counted from `i`, at which
`substr` starts in the remaining input, or `-1`. -/
def strings.indexFrom (substr : GoString) : GoString → Nat → Int
  | [], i => if substr.isPrefixOf [] then (i : Int) else -1
  | c :: cs, i =>
    if substr.isPrefixOf (c :: cs) then (i : Int) else strings.indexFrom substr cs (i + 1)

/-- Go `strings.Index(s, substr)`: the index of the first instance of `substr`
in `s`, or `-1` if `substr` is not present in `s`. -/
def strings.Index (s substr : GoString) : Int := strings.indexFrom substr s 0

/-- Go `strings.Join(elems, sep)`: the first element followed, for every later
element, by the separator and that element; the empty string for no element. -/
def strings.Join (elems : List GoString) (sep : GoString) : GoString :=
  match elems with
  | [] => []
  | e :: rest => rest.foldl (fun b s => b ++ sep ++ s) e

/-! ## The ID codec -/

/-- Constant `IncomingInternetID`. -/
def IncomingInternetID : GoString := lit "in-theinternet"

/-- Constant `OutgoingInternetID`. -/
def OutgoingInternetID : GoString := lit "out-theinternet"

/-- `MakePseudoNodeID(parts ...string)`:
`strings.Join(append([]string{"pseudo"}, parts...), ":")`. -/
def MakePseudoNodeID (parts : List GoString) : GoString :=
  strings.Join ([lit "pseudo"] ++ parts) (lit ":")

/-- `ParsePseudoNodeID(nodeID)`: `pos := strings.Index(nodeID, ":")`; when
`pos == -1 || nodeID[:pos] != "pseudo"` the input and `false`, otherwise
`nodeID[pos+1:]` and `true`. -/
def ParsePseudoNodeID (nodeID : GoString) : GoString × Bool :=
  let pos := strings.Index nodeID (lit ":")
  if pos == -1 || nodeID.take pos.toNat != lit "pseudo" then
    (nodeID, false)
  else
    (nodeID.drop (pos + 1).toNat, true)

/-- `MakeGroupNodeTopology(originalTopology, key)`:
`strings.Join([]string{"group", originalTopology, key}, ":")`. -/
def MakeGroupNodeTopology (originalTopology key : GoString) : GoString :=
  strings.Join [lit "group", originalTopology, key] (lit ":")

/-! ## Nodes and the external collaborators -/

/-- A `net.IP`: a byte slice. -/
abbrev IP := List UInt8

/-- Modelled from the spec: the type `report.Sets` is declared outside
`render/id.go`; it is "a set of named string-collections", read through a
lookup by name that returns an ordered collection. The collections are kept as
a list of (name, collection) entries. -/
structure Sets where
  entries : List (GoString × List GoString)

/-- Modelled from the spec: `Sets.Lookup(key)`, declared outside `render/id.go`:
the collection stored under `key` and whether there is one; an absent
collection is the empty one. -/
def Sets.Lookup (s : Sets) (key : GoString) : List GoString × Bool :=
  match s.entries.lookup key with
  | some names => (names, true)
  | none => ([], false)

/-- Modelled from the spec: the type `report.Node` is declared outside
`render/id.go`; it has "an ID string, a set of adjacency relations, a set of
named string-collections (Sets), and a set of child nodes", and a topology
tag. -/
structure Node where
  ID : GoString
  Topology : GoString
  Sets : Sets
  Adjacency : List GoString
  Children : List Node

/-- Modelled from the spec: the type `report.Networks` is declared outside
`render/id.go`; it is "an externally supplied membership-testable set of IP
prefixes", used here only through `Contains(ip) -> bool`. -/
structure Networks where
  Contains : IP → Bool

/-- The constants and functions that `render/id.go` uses and other files declare:
the known-service prefix and predicate, the pseudo-topology marker, the names of
the two DNS collections, the endpoint-ID parser (scope, address, port, ok) and
the IP parser (`none` for a nil result; its second argument is the buffer). -/
structure Env where
  ServiceNodeIDPrefix : GoString
  Pseudo : GoString
  SnoopedDNSNames : GoString
  ReverseDNSNames : GoString
  isKnownService : GoString → Bool
  ParseEndpointNodeID : GoString → GoString × GoString × GoString × Bool
  ParseIP : GoString → List UInt8 → Option IP

/-! ## The classifier -/

/-- `IsInternetNode(n)`: `n.ID == IncomingInternetID || n.ID == OutgoingInternetID`. -/
def IsInternetNode (n : Node) : Bool :=
  n.ID == IncomingInternetID || n.ID == OutgoingInternetID

/-- One `for _, hostname := range names` loop of `DNSFirstMatch`: the first
name on which `matchFn` is true leaves the loop with a result. -/
def rangeFirstMatch (matchFn : GoString → Bool) : List GoString → Option GoString
  | [] => none
  | hostname :: rest =>
    if matchFn hostname then some hostname else rangeFirstMatch matchFn rest

/-- `DNSFirstMatch(n, match)`: the loop over the snooped names, then the loop
over the reverse-resolved names, then `"", false`. -/
def DNSFirstMatch (env : Env) (n : Node) (matchFn : GoString → Bool) : GoString × Bool :=
  let snoopedNames := (n.Sets.Lookup env.SnoopedDNSNames).1
  match rangeFirstMatch matchFn snoopedNames with
  | some hostname => (hostname, true)
  | none =>
    let reverseNames := (n.Sets.Lookup env.ReverseDNSNames).1
    match rangeFirstMatch matchFn reverseNames with
    | some hostname => (hostname, true)
    | none => ([], false)

/-- The buffer `into[:4]` that `externalNodeID` hands to the IP parser: four
zero bytes. -/
def ipBuffer : List UInt8 := List.replicate 4 0

/-- `externalNodeID(n, addr, local)`: the known-service check first, then the
IP check with the adjacency test, then `"", false`. -/
def externalNodeID (env : Env) (n : Node) (addr : GoString) (localNets : Networks) :
    GoString × Bool :=
  match DNSFirstMatch env n env.isKnownService with
  | (hostname, true) => ( env.ServiceNodeIDPrefix ++ hostname, true)
  | (_, false) =>
    match env.ParseIP addr ipBuffer with
    | some ip =>
      if !localNets.Contains ip then
        if n.Adjacency.length > 0 then (IncomingInternetID, true)
        else (OutgoingInternetID, true)
      else ([], false)
    | none => ([], false)

/-- `pseudoNodeID(n, local)`: parse the endpoint ID; `"", false` when that
fails; otherwise the result of `externalNodeID` when its flag is true, and
`"", false` when not. -/
def pseudoNodeID (env : Env) (n : Node) (localNets : Networks) : GoString × Bool :=
  match env.ParseEndpointNodeID n.ID with
  | (_, _, _, false) => ([], false)
  | (_, addr, _, true) =>
    match externalNodeID env n addr localNets with
    | (id, true) => (id, true)
    | (_, false) => ([], false)

/-- The DNS names of a node, in the order `DNSFirstMatch` reads them: the
snooped collection, then the reverse-resolved one. -/
def dnsNames (env : Env) (n : Node) : List GoString :=
  (n.Sets.Lookup env.SnoopedDNSNames).1 ++ (n.Sets.Lookup env.ReverseDNSNames).1

/-! ## The pseudo-node constructor -/

/-- Modelled from the spec: `report.MakeNode(id)` is declared outside
`render/id.go`; it makes a node with the given ID and nothing else (a node
built from it alone is "a bare ... node with no children"). -/
def MakeNode (id : GoString) : Node :=
  { ID := id, Topology := [], Sets := ⟨[]⟩, Adjacency := [], Children := [] }

/-- Modelled from the spec: `NodeSet.Add(node)` is declared outside
`render/id.go`; the children are "a set of child nodes", a node's identity is
its ID, and the operation is the "child-collection union with a node", after
which the node is "reachable as a child": a child already held under the
node's ID gives way to the node, and every other child is kept. -/
def NodeSet.Add (children : List Node) (node : Node) : List Node :=
  children.filter (fun c => c.ID != node.ID) ++ [node]

/-- Modelled from the spec: `Node.WithChildren(children)` is declared outside
`render/id.go`; it "writes the child-collection": the result is the node with
the given children added to those it has, and nothing else changed. -/
def Node.WithChildren (n : Node) (children : List Node) : Node :=
  { n with Children := n.Children ++ children }

/-- Modelled from the spec: `Node.WithTopology(topology)` is declared outside
`render/id.go`; it writes "a topology tag": the result is the node with that
tag, and nothing else changed. -/
def Node.WithTopology (n : Node) (topology : GoString) : Node :=
  { n with Topology := topology }

/-- `NewDerivedNode(id, node)`:
`report.MakeNode(id).WithChildren(node.Children.Add(node))`. -/
def NewDerivedNode (id : GoString) (node : Node) : Node :=
  (MakeNode id).WithChildren (NodeSet.Add node.Children node)

/-- `NewDerivedPseudoNode(id, node)`:
`NewDerivedNode(id, node).WithTopology(Pseudo)`. -/
def NewDerivedPseudoNode (env : Env) (id : GoString) (node : Node) : Node :=
  (NewDerivedNode id node).WithTopology env.Pseudo

/-- `newPseudoNode(id)`: `report.MakeNode(id).WithTopology(Pseudo)`. -/
def newPseudoNode (env : Env) (id : GoString) : Node :=
  (MakeNode id).WithTopology env.Pseudo

/-! ## A concrete instance of the collaborators

The theorems below hold for every `Env` and `Networks`. The instance here fixes
one choice of them, so that the classifier can be evaluated on concrete nodes. -/

namespace Sample

/-- Modelled from the spec: the endpoint-ID parser is declared outside
`render/id.go`; it "decodes a composite endpoint node ID into (protocol,
address-string, port, ok)". This one reads `scope;address;port`. -/
def ParseEndpointNodeID (id : GoString) : GoString × GoString × GoString × Bool :=
  let first := strings.Index id (lit ";")
  if first < 0 then ([], [], [], false)
  else
    let rest := id.drop (first + 1).toNat
    let second := strings.Index rest (lit ";")
    if second < 0 then ([], [], [], false)
    else (id.take first.toNat, rest.take second.toNat, rest.drop (second + 1).toNat, true)

/-- One decimal field of a dotted-quad address: one to three digits, at most
255. -/
def parseOctet (digits : GoString) : Option UInt8 :=
  if digits.length = 0 ∨ digits.length > 3 then none
  else if digits.all (fun b => 48 ≤ b.toNat && b.toNat ≤ 57) then
    let v := digits.foldl (fun acc b => acc * 10 + (b.toNat - 48)) 0
    if v ≤ 255 then some (UInt8.ofNat v) else none
  else none

/-- Modelled from the spec: the IP parser is declared outside `render/id.go`; it
"decodes a textual/byte address into a fixed-length binary IP or nil on
failure", 4 bytes for this core. This one reads dotted-quad IPv4. -/
def ParseIP (s : GoString) (_into : List UInt8) : Option IP :=
  match (s.splitOn 46).map parseOctet with
  | [some a, some b, some c, some d] => some [a, b, c, d]
  | _ => none

/-- Modelled from the spec: local networks as a list of IP prefixes (address,
length in whole bytes); an IP is contained when it starts with the bytes of one
of them. -/
def networks (prefixes : List (IP × Nat)) : Networks :=
  ⟨fun ip => prefixes.any (fun p => ip.take p.2 == p.1.take p.2)⟩

/-- Modelled from the spec: the known-service predicate is "an externally
defined allowlist"; this one allows two host names. -/
def isKnownService (name : GoString) : Bool :=
  name == lit "s3.amazonaws.com" || name == lit "www.googleapis.com"

/-- The instance: the parsers and predicate above, with fixed strings for the
constants. -/
def env : Env where
  ServiceNodeIDPrefix := lit "service-"
  Pseudo := lit "pseudo"
  SnoopedDNSNames := lit "snooped_dns_names"
  ReverseDNSNames := lit "reverse_dns_names"
  isKnownService := isKnownService
  ParseEndpointNodeID := ParseEndpointNodeID
  ParseIP := ParseIP

/-- The local networks `{10.0.0.0/8}`. -/
def tenSlashEight : Networks := networks [([10, 0, 0, 0], 1)]

/-- A node with the given ID, DNS collections and adjacency, no children and an
empty topology tag. -/
def node (id : GoString) (sets : List (GoString × List GoString)) (adjacency : List GoString) :
    Node :=
  { ID := id, Topology := [], Sets := ⟨sets⟩, Adjacency := adjacency, Children := [] }

/-- A childless node with ID `a`, tagged `inner`. -/
def inner : Node :=
  { ID := lit "a", Topology := lit "inner", Sets := ⟨[]⟩, Adjacency := [], Children := [] }

/-- A childless node with ID `b`. -/
def other : Node :=
  { ID := lit "b", Topology := [], Sets := ⟨[]⟩, Adjacency := [], Children := [] }

/-- A node with ID `a`, tagged `outer`, whose children are `inner`, which
carries the same ID `a`, and `other`. -/
def outer : Node :=
  { ID := lit "a", Topology := lit "outer", Sets := ⟨[]⟩, Adjacency := [],
    Children := [inner, other] }

end Sample

/-! ## Lemmas on strings -/

theorem lit_colon : lit ":" = [colon] := by decide

theorem lit_pseudo : lit "pseudo" = [112, 115, 101, 117, 100, 111] := by decide

theorem lit_pseudo_colon : lit "pseudo:" = lit "pseudo" ++ lit ":" := by decide

theorem take_length_takeWhile (p : UInt8 → Bool) (l : GoString) :
    l.take (l.takeWhile p).length = l.takeWhile p := by
  induction l with
  | nil => rfl
  | cons d ds ih =>
    by_cases h : p d = true
    · simp [List.takeWhile_cons_of_pos h, ih]
    · simp [List.takeWhile_cons_of_neg h]

theorem drop_length_takeWhile (p : UInt8 → Bool) (l : GoString) :
    l.drop (l.takeWhile p).length = l.dropWhile p := by
  induction l with
  | nil => rfl
  | cons d ds ih =>
    by_cases h : p d = true
    · simp [List.takeWhile_cons_of_pos h, List.dropWhile_cons_of_pos h, ih]
    · simp [List.takeWhile_cons_of_neg h, List.dropWhile_cons_of_neg h]

theorem strings.indexFrom_byte (c : UInt8) (s : GoString) (i : Nat) :
    strings.indexFrom [c] s i =
      if c ∈ s then ((i + (s.takeWhile (fun b => b != c)).length : Nat) : Int) else -1 := by
  induction s generalizing i with
  | nil => simp [strings.indexFrom, List.isPrefixOf]
  | cons d ds ih =>
    by_cases h : c = d
    · subst h
      simp [strings.indexFrom, List.isPrefixOf]
    · have h2 : ¬ d = c := fun e => h e.symm
      have h3 : (d != c) = true := by simp [h2]
      rw [List.takeWhile_cons_of_pos (p := fun b => b != c) h3]
      simp [strings.indexFrom, List.isPrefixOf, h, ih]
      split
      · omega
      · rfl

theorem ParsePseudoNodeID_eq (id : GoString) :
    ParsePseudoNodeID id =
      if colon ∈ id ∧ id.takeWhile (fun b => b != colon) = lit "pseudo" then
        (id.drop ((id.takeWhile (fun b => b != colon)).length + 1), true)
      else (id, false) := by
  unfold ParsePseudoNodeID strings.Index
  rw [lit_colon, strings.indexFrom_byte]
  by_cases hc : colon ∈ id
  · have htake := take_length_takeWhile (fun b => b != colon) id
    by_cases hp : id.takeWhile (fun b => b != colon) = lit "pseudo"
    · rw [hp] at htake
      simp [hc, hp, htake]
    · simp [hc, hp, htake]
  · simp [hc]

theorem takeWhile_append_byte (c : UInt8) (p r : GoString) (h : c ∉ p) :
    (p ++ c :: r).takeWhile (fun b => b != c) = p := by
  induction p with
  | nil => simp
  | cons d ds ih =>
    have hd : (d != c) = true := by
      simp only [bne_iff_ne, ne_eq]
      intro e
      exact h (e ▸ List.mem_cons_self d ds)
    have hds : c ∉ ds := fun m => h (List.mem_cons_of_mem d m)
    rw [List.cons_append, List.takeWhile_cons_of_pos (p := fun b => b != c) hd, ih hds]

theorem parse_pseudo_tagged (r : GoString) :
    ParsePseudoNodeID (lit "pseudo" ++ lit ":" ++ r) = (r, true) := by
  have hnot : colon ∉ lit "pseudo" := by decide
  have htw := takeWhile_append_byte colon (lit "pseudo") r hnot
  have hshape : lit "pseudo" ++ lit ":" ++ r = lit "pseudo" ++ colon :: r := by
    rw [lit_colon]; simp
  rw [ParsePseudoNodeID_eq, hshape, htw, if_pos ⟨by simp, rfl⟩]
  simp

theorem strings.foldl_join_append (sep p q : GoString) (rest : List GoString) :
    rest.foldl (fun b s => b ++ sep ++ s) (p ++ q) = p ++ rest.foldl (fun b s => b ++ sep ++ s) q := by
  induction rest generalizing q with
  | nil => rfl
  | cons r rs ih =>
    simp only [List.foldl_cons]
    rw [← ih]
    simp [List.append_assoc]

theorem strings.Join_cons_cons (e r : GoString) (rest : List GoString) (sep : GoString) :
    strings.Join (e :: r :: rest) sep = e ++ sep ++ strings.Join (r :: rest) sep := by
  simp only [strings.Join, List.foldl_cons]
  rw [strings.foldl_join_append]

theorem strings.Join_eq_intercalate (elems : List GoString) (sep : GoString) :
    strings.Join elems sep = List.intercalate sep elems := by
  induction elems with
  | nil => rfl
  | cons e rest ih =>
    cases rest with
    | nil => simp [strings.Join, List.intercalate]
    | cons r rs =>
      rw [strings.Join_cons_cons, ih]
      simp [List.intercalate, List.intersperse]

/-- C1. Round trip of a single part: for every string `x` (in particular every
non-empty one), parsing the pseudo-node ID made from `x` gives back `x` with a
true flag. -/
theorem parse_make_single_roundtrip (x : GoString) :
    ParsePseudoNodeID (MakePseudoNodeID [x]) = (x, true) := by
  have h : MakePseudoNodeID [x] = lit "pseudo" ++ lit ":" ++ x := by
    simp [MakePseudoNodeID, strings.Join]
  rw [h, parse_pseudo_tagged]

/-- C2. Non-pseudo passthrough: an ID with no `:`, or whose bytes before the
first `:` are not exactly `pseudo`, is returned unchanged with a false flag. -/
theorem parse_non_pseudo_passthrough (id : GoString)
    (h : colon ∉ id ∨ id.takeWhile (fun b => b != colon) ≠ lit "pseudo") :
    ParsePseudoNodeID id = (id, false) := by
  rw [ParsePseudoNodeID_eq, if_neg]
  rintro ⟨hc, hp⟩
  rcases h with h | h
  · exact h hc
  · exact h hp

/-- C3. The flag is true exactly when the ID begins with `pseudo:`, and then the
returned string is the rest of the ID after that first `:`, later `:` bytes
included. -/
theorem parse_flag_iff_pseudo_tag (id : GoString) :
    ((ParsePseudoNodeID id).2 = true ↔ lit "pseudo:" <+: id) ∧
    ((ParsePseudoNodeID id).2 = true → lit "pseudo:" ++ (ParsePseudoNodeID id).1 = id) := by
  have key : (ParsePseudoNodeID id).2 = true → lit "pseudo:" ++ (ParsePseudoNodeID id).1 = id := by
    rw [ParsePseudoNodeID_eq]
    split
    · rename_i hcp
      obtain ⟨hc, hp⟩ := hcp
      intro _
      have hsplit := List.takeWhile_append_dropWhile (fun b => b != colon) id
      have hdrop := drop_length_takeWhile (fun b => b != colon) id
      have hhead : ∃ t, id.dropWhile (fun b => b != colon) = colon :: t := by
        cases hdw : id.dropWhile (fun b => b != colon) with
        | nil =>
          rw [hdw, List.append_nil] at hsplit
          have hall := List.mem_takeWhile_imp (hsplit ▸ hc)
          simp at hall
        | cons a t =>
          have ha := List.head_dropWhile_not (fun b => b != colon) id (by simp [hdw])
          simp [hdw] at ha
          exact ⟨t, by rw [ha]⟩
      obtain ⟨t, ht⟩ := hhead
      rw [← List.drop_drop, hdrop, ht]
      simp only [List.drop_succ_cons, List.drop_zero]
      rw [← hsplit, hp, ht, lit_pseudo_colon, lit_colon]
      simp
    · intro h
      simp at h
  refine ⟨⟨fun h => ⟨_, key h⟩, ?_⟩, key⟩
  rintro ⟨r, rfl⟩
  rw [lit_pseudo_colon, parse_pseudo_tagged]

/-- C4. For a non-empty part list, parsing the made ID returns the parts joined
with `:` in the caller's order, as one string, with a true flag. -/
theorem parse_make_parts (parts : List GoString) (h : parts ≠ []) :
    ParsePseudoNodeID (MakePseudoNodeID parts) = (List.intercalate (lit ":") parts, true) := by
  cases parts with
  | nil => exact absurd rfl h
  | cons p ps =>
    have hm : MakePseudoNodeID (p :: ps) = lit "pseudo" ++ lit ":" ++ strings.Join (p :: ps) (lit ":") := by
      simp only [MakePseudoNodeID, List.singleton_append]
      rw [strings.Join_cons_cons]
    rw [hm, parse_pseudo_tagged, strings.Join_eq_intercalate]

/-- C5. The group topology name is `group:`, the original topology, `:` and the
key, for all inputs; `t1` and `k1` give `group:t1:k1`. -/
theorem make_group_topology_format :
    (∀ originalTopology key : GoString,
      MakeGroupNodeTopology originalTopology key
        = lit "group:" ++ originalTopology ++ lit ":" ++ key) ∧
    MakeGroupNodeTopology (lit "t1") (lit "k1") = lit "group:t1:k1" := by
  refine ⟨fun t k => ?_, by decide⟩
  have hg : lit "group:" = lit "group" ++ lit ":" := by decide
  simp [MakeGroupNodeTopology, strings.Join, hg]

/-- C2, at concrete inputs: `hello` and `pseudoXYZ` have no `:`, and `host:80`
has `host` before its first `:`; each is returned unchanged with a false flag. -/
theorem parse_non_pseudo_passthrough_witness :
    (colon ∉ lit "hello" ∧ ParsePseudoNodeID (lit "hello") = (lit "hello", false)) ∧
    (colon ∉ lit "pseudoXYZ" ∧
      ParsePseudoNodeID (lit "pseudoXYZ") = (lit "pseudoXYZ", false)) ∧
    ((lit "host:80").takeWhile (fun b => b != colon) ≠ lit "pseudo" ∧
      ParsePseudoNodeID (lit "host:80") = (lit "host:80", false)) :=
  ⟨⟨by decide, parse_non_pseudo_passthrough _ (Or.inl (by decide))⟩,
   ⟨by decide, parse_non_pseudo_passthrough _ (Or.inl (by decide))⟩,
   ⟨by decide, parse_non_pseudo_passthrough _ (Or.inr (by decide))⟩⟩

/-- C3, at concrete inputs: `pseudo:a:b` parses to `a:b` with a true flag, and
`pseudoXYZ`, which does not begin with `pseudo:`, gets a false flag. -/
theorem parse_flag_iff_pseudo_tag_witness :
    (lit "pseudo:" <+: lit "pseudo:a:b" ∧ (ParsePseudoNodeID (lit "pseudo:a:b")).2 = true ∧
      lit "pseudo:" ++ (ParsePseudoNodeID (lit "pseudo:a:b")).1 = lit "pseudo:a:b") ∧
    ¬ lit "pseudo:" <+: lit "pseudoXYZ" :=
  ⟨⟨⟨lit "a:b", by decide⟩,
    (parse_flag_iff_pseudo_tag (lit "pseudo:a:b")).1.2 ⟨lit "a:b", by decide⟩,
    (parse_flag_iff_pseudo_tag (lit "pseudo:a:b")).2 (by decide)⟩,
   fun h => absurd ((parse_flag_iff_pseudo_tag (lit "pseudoXYZ")).1.2 h) (by decide)⟩

/-- C4, at a concrete input: the parts `a`, `b:c` and the empty string. -/
theorem parse_make_parts_witness :
    [lit "a", lit "b:c", lit ""] ≠ [] ∧
    ParsePseudoNodeID (MakePseudoNodeID [lit "a", lit "b:c", lit ""])
      = (lit "a:b:c:", true) :=
  ⟨by decide, (parse_make_parts [lit "a", lit "b:c", lit ""] (by decide)).trans (by decide)⟩

/-! ## Lemmas on the classifier -/

theorem rangeFirstMatch_none (matchFn : GoString → Bool) (names : List GoString)
    (h : ∀ name ∈ names, matchFn name = false) : rangeFirstMatch matchFn names = none := by
  induction names with
  | nil => rfl
  | cons a rest ih =>
    have ha : matchFn a = false := h a (List.mem_cons_self a rest)
    simp only [rangeFirstMatch, ha, Bool.false_eq_true, if_false]
    exact ih (fun name hm => h name (List.mem_cons_of_mem a hm))

theorem DNSFirstMatch_none (env : Env) (n : Node) (matchFn : GoString → Bool)
    (h : ∀ name ∈ dnsNames env n, matchFn name = false) :
    DNSFirstMatch env n matchFn = ([], false) := by
  have h1 := rangeFirstMatch_none matchFn (n.Sets.Lookup env.SnoopedDNSNames).1
    (fun name hm => h name (List.mem_append_left _ hm))
  have h2 := rangeFirstMatch_none matchFn (n.Sets.Lookup env.ReverseDNSNames).1
    (fun name hm => h name (List.mem_append_right _ hm))
  simp only [DNSFirstMatch, h1, h2]

theorem externalNodeID_found (env : Env) (n : Node) (addr : GoString) (localNets : Networks)
    (hostname : GoString) (h : DNSFirstMatch env n env.isKnownService = (hostname, true)) :
    externalNodeID env n addr localNets = ( env.ServiceNodeIDPrefix ++ hostname, true) := by
  simp only [externalNodeID, h]

theorem externalNodeID_not_found (env : Env) (n : Node) (addr : GoString) (localNets : Networks)
    (h : ∀ name ∈ dnsNames env n, env.isKnownService name = false) :
    externalNodeID env n addr localNets =
      match env.ParseIP addr ipBuffer with
      | some ip =>
        if localNets.Contains ip = false then
          if 0 < n.Adjacency.length then (IncomingInternetID, true)
          else (OutgoingInternetID, true)
        else ([], false)
      | none => ([], false) := by
  simp only [externalNodeID, DNSFirstMatch_none env n env.isKnownService h]
  cases env.ParseIP addr ipBuffer with
  | none => rfl
  | some ip => cases hc : localNets.Contains ip <;> simp

theorem externalNodeID_flag_false (env : Env) (n : Node) (addr : GoString) (localNets : Networks)
    (h : (externalNodeID env n addr localNets).2 = false) :
    externalNodeID env n addr localNets = ([], false) := by
  unfold externalNodeID at h ⊢
  rcases hd : DNSFirstMatch env n env.isKnownService with ⟨hostname, found⟩
  rw [hd] at h
  cases found with
  | true => simp at h
  | false =>
    cases hip : env.ParseIP addr ipBuffer with
    | none => rfl
    | some ip =>
      rw [hip] at h
      cases hc : localNets.Contains ip with
      | true => simp [hc]
      | false =>
        simp only [hc, Bool.not_false, if_true] at h
        split at h <;> simp at h

theorem lit_incoming : lit "in-theinternet" = IncomingInternetID := rfl

theorem lit_outgoing : lit "out-theinternet" = OutgoingInternetID := rfl

/-! ## The classifier: sentinel IDs, priority and direction -/

/-- C6. A node is an internet node exactly when its ID is `in-theinternet` or
`out-theinternet`; a different case, an added prefix or suffix, and the empty
string are all rejected. -/
theorem is_internet_node_iff :
    (∀ n : Node, IsInternetNode n = true ↔
      (n.ID = lit "in-theinternet" ∨ n.ID = lit "out-theinternet")) ∧
    IsInternetNode (Sample.node (lit "In-theinternet") [] []) = false ∧
    IsInternetNode (Sample.node (lit "OUT-THEINTERNET") [] []) = false ∧
    IsInternetNode (Sample.node (lit "pseudo:in-theinternet") [] []) = false ∧
    IsInternetNode (Sample.node (lit "out-theinternet ") [] []) = false ∧
    IsInternetNode (Sample.node (lit "theinternet") [] []) = false ∧
    IsInternetNode (Sample.node (lit "") [] []) = false := by
  refine ⟨fun n => ?_, by decide, by decide, by decide, by decide, by decide, by decide⟩
  simp [IsInternetNode, lit_incoming, lit_outgoing]

/-- C7. Classification priority: when the DNS matcher finds a known-service
name `h` on the node, the classifier returns the service prefix followed by `h`
with a true flag, for every address and every set of local networks. -/
theorem known_service_takes_priority (env : Env) (n : Node) (addr : GoString)
    (localNets : Networks) (h : GoString)
    (hfound : DNSFirstMatch env n env.isKnownService = (h, true)) :
    externalNodeID env n addr localNets = ( env.ServiceNodeIDPrefix ++ h, true) :=
  externalNodeID_found env n addr localNets h hfound

/-- C7, at concrete inputs: a node with the reverse-resolved name
`s3.amazonaws.com` is the service `service-s3.amazonaws.com` both at the address
`10.1.2.3`, which lies in the local network `10.0.0.0/8`, and at the address
`not-an-ip`, which does not parse. -/
theorem known_service_takes_priority_witness :
    (Sample.ParseIP (lit "10.1.2.3") ipBuffer = some [10, 1, 2, 3] ∧
      Sample.tenSlashEight.Contains [10, 1, 2, 3] = true ∧
      externalNodeID Sample.env
        (Sample.node (lit ";10.1.2.3;443")
          [(lit "reverse_dns_names", [lit "a.example.com", lit "s3.amazonaws.com"])] [])
        (lit "10.1.2.3") Sample.tenSlashEight = (lit "service-s3.amazonaws.com", true)) ∧
    (Sample.ParseIP (lit "not-an-ip") ipBuffer = none ∧
      externalNodeID Sample.env
        (Sample.node (lit ";not-an-ip;443")
          [(lit "reverse_dns_names", [lit "a.example.com", lit "s3.amazonaws.com"])] [])
        (lit "not-an-ip") Sample.tenSlashEight = (lit "service-s3.amazonaws.com", true)) :=
  ⟨⟨by decide, by decide,
    (known_service_takes_priority Sample.env _ (lit "10.1.2.3") Sample.tenSlashEight
      (lit "s3.amazonaws.com") (by decide)).trans (by decide)⟩,
   ⟨by decide,
    (known_service_takes_priority Sample.env _ (lit "not-an-ip") Sample.tenSlashEight
      (lit "s3.amazonaws.com") (by decide)).trans (by decide)⟩⟩

/-- C8. Directionality: for a node none of whose DNS names is a known service,
and an address that parses to an IP outside the local networks, the classifier
returns `in-theinternet` when the node has at least one adjacency and
`out-theinternet` when it has none, both with a true flag. -/
theorem internet_direction (env : Env) (n : Node) (addr : GoString) (localNets : Networks)
    (ip : IP)
    (hno : ∀ name ∈ dnsNames env n, env.isKnownService name = false)
    (hip : env.ParseIP addr ipBuffer = some ip)
    (hout : localNets.Contains ip = false) :
    (0 < n.Adjacency.length →
      externalNodeID env n addr localNets = (lit "in-theinternet", true)) ∧
    (n.Adjacency.length = 0 →
      externalNodeID env n addr localNets = (lit "out-theinternet", true)) := by
  rw [externalNodeID_not_found env n addr localNets hno, hip]
  simp only [hout, if_true]
  constructor
  · intro hadj
    rw [if_pos hadj]; rfl
  · intro hadj
    rw [if_neg (by omega)]; rfl

/-- C8, at concrete inputs: the address `203.0.113.5` is outside `10.0.0.0/8`; a
node with one adjacency and a node with three are both incoming, a node with
none is outgoing. -/
theorem internet_direction_witness :
    (∀ name ∈ dnsNames Sample.env
        (Sample.node (lit ";203.0.113.5;80") [(lit "snooped_dns_names", [lit "a.example.com"])]
          [lit "x"]),
      Sample.env.isKnownService name = false) ∧
    Sample.env.ParseIP (lit "203.0.113.5") ipBuffer = some [203, 0, 113, 5] ∧
    Sample.tenSlashEight.Contains [203, 0, 113, 5] = false ∧
    externalNodeID Sample.env
      (Sample.node (lit ";203.0.113.5;80") [(lit "snooped_dns_names", [lit "a.example.com"])]
        [lit "x"])
      (lit "203.0.113.5") Sample.tenSlashEight = (lit "in-theinternet", true) ∧
    externalNodeID Sample.env
      (Sample.node (lit ";203.0.113.5;80") [(lit "snooped_dns_names", [lit "a.example.com"])]
        [lit "x", lit "y", lit "z"])
      (lit "203.0.113.5") Sample.tenSlashEight = (lit "in-theinternet", true) ∧
    externalNodeID Sample.env
      (Sample.node (lit ";203.0.113.5;80") [(lit "snooped_dns_names", [lit "a.example.com"])]
        [])
      (lit "203.0.113.5") Sample.tenSlashEight = (lit "out-theinternet", true) :=
  ⟨by decide, by decide, by decide,
   (internet_direction Sample.env _ (lit "203.0.113.5") Sample.tenSlashEight [203, 0, 113, 5]
      (by decide) (by decide) (by decide)).1 (by decide),
   (internet_direction Sample.env _ (lit "203.0.113.5") Sample.tenSlashEight [203, 0, 113, 5]
      (by decide) (by decide) (by decide)).1 (by decide),
   (internet_direction Sample.env _ (lit "203.0.113.5") Sample.tenSlashEight [203, 0, 113, 5]
      (by decide) (by decide) (by decide)).2 (by decide)⟩

/-- C9. End to end: when the node's ID parses as an endpoint ID with address
`a`, none of the node's DNS names is a known service, `a` parses to an IP outside
the local networks and the node has at least one adjacency, the pseudo node ID is
`in-theinternet`, with a true flag. -/
theorem pseudoNodeID_incoming (env : Env) (n : Node) (localNets : Networks)
    (scope a port : GoString) (ip : IP)
    (hparse : env.ParseEndpointNodeID n.ID = (scope, a, port, true))
    (hno : ∀ name ∈ dnsNames env n, env.isKnownService name = false)
    (hip : env.ParseIP a ipBuffer = some ip)
    (hout : localNets.Contains ip = false)
    (hadj : 0 < n.Adjacency.length) :
    pseudoNodeID env n localNets = (lit "in-theinternet", true) := by
  have hext : externalNodeID env n a localNets = (IncomingInternetID, true) := by
    rw [externalNodeID_not_found env n a localNets hno, hip]
    simp only [hout, if_true]
    rw [if_pos hadj]
  simp only [pseudoNodeID, hparse, hext]
  rfl

/-- C9, at the scenario of the specification: the endpoint address
`203.0.113.5`, local networks `10.0.0.0/8`, one adjacency and a DNS name that
is not a known service. -/
theorem pseudoNodeID_incoming_witness :
    Sample.env.ParseEndpointNodeID (lit ";203.0.113.5;80")
      = (lit "", lit "203.0.113.5", lit "80", true) ∧
    Sample.env.ParseIP (lit "203.0.113.5") ipBuffer = some [203, 0, 113, 5] ∧
    Sample.tenSlashEight.Contains [203, 0, 113, 5] = false ∧
    pseudoNodeID Sample.env
      (Sample.node (lit ";203.0.113.5;80") [(lit "snooped_dns_names", [lit "a.example.com"])]
        [lit ";10.0.0.7;5432"])
      Sample.tenSlashEight = (lit "in-theinternet", true) :=
  ⟨by decide, by decide, by decide,
   pseudoNodeID_incoming Sample.env _ Sample.tenSlashEight (lit "") (lit "203.0.113.5")
     (lit "80") [203, 0, 113, 5] (by decide) (by decide) (by decide) (by decide) (by decide)⟩

/-- C10. When the endpoint-ID parser fails on the node's ID, the pseudo node ID
is the empty string with a false flag, whatever the node's DNS names, its
adjacency and the other collaborators are; when the parser succeeds with address
`addr`, the result is that of `externalNodeID` at `addr`. -/
theorem pseudoNodeID_delegates (env : Env) (n : Node) (localNets : Networks) :
    ((env.ParseEndpointNodeID n.ID).2.2.2 = false →
      pseudoNodeID env n localNets = ([], false)) ∧
    (∀ scope addr port : GoString,
      env.ParseEndpointNodeID n.ID = (scope, addr, port, true) →
      pseudoNodeID env n localNets = externalNodeID env n addr localNets) := by
  constructor
  · intro hfail
    rcases hp : env.ParseEndpointNodeID n.ID with ⟨scope, addr, port, ok⟩
    rw [hp] at hfail
    simp only at hfail
    subst hfail
    simp only [pseudoNodeID, hp]
  · intro scope addr port hp
    simp only [pseudoNodeID, hp]
    rcases he : externalNodeID env n addr localNets with ⟨id, ok⟩
    cases ok with
    | true => rfl
    | false =>
      have hflag : (externalNodeID env n addr localNets).2 = false := by rw [he]
      have hempty := externalNodeID_flag_false env n addr localNets hflag
      rw [he] at hempty
      simp only [hempty]

/-- C10, at concrete inputs: the ID `no-delimiter` is not an endpoint ID, and
gives the empty string and a false flag although the node carries a known-service
name; the ID `;10.1.2.3;443` is one, and the same node under it is classified as
`externalNodeID` classifies it at `10.1.2.3`. -/
theorem pseudoNodeID_delegates_witness :
    pseudoNodeID Sample.env
      (Sample.node (lit "no-delimiter") [(lit "snooped_dns_names", [lit "s3.amazonaws.com"])] [])
      Sample.tenSlashEight = ([], false) ∧
    pseudoNodeID Sample.env
      (Sample.node (lit ";10.1.2.3;443") [(lit "snooped_dns_names", [lit "s3.amazonaws.com"])] [])
      Sample.tenSlashEight
      = externalNodeID Sample.env
          (Sample.node (lit ";10.1.2.3;443")
            [(lit "snooped_dns_names", [lit "s3.amazonaws.com"])] [])
          (lit "10.1.2.3") Sample.tenSlashEight :=
  ⟨(pseudoNodeID_delegates Sample.env _ Sample.tenSlashEight).1 (by decide),
   (pseudoNodeID_delegates Sample.env _ Sample.tenSlashEight).2
     (lit "") (lit "10.1.2.3") (lit "443") (by decide)⟩

/-! ## Lemmas on the DNS matcher -/

theorem rangeFirstMatch_eq_find (matchFn : GoString → Bool) (names : List GoString) :
    rangeFirstMatch matchFn names = names.find? matchFn := by
  induction names with
  | nil => rfl
  | cons a rest ih =>
    cases ha : matchFn a with
    | true => simp [rangeFirstMatch, ha]
    | false => simp [rangeFirstMatch, ha, ih]

theorem DNSFirstMatch_eq_find (env : Env) (n : Node) (matchFn : GoString → Bool) :
    DNSFirstMatch env n matchFn =
      match (dnsNames env n).find? matchFn with
      | some hostname => (hostname, true)
      | none => ([], false) := by
  simp only [DNSFirstMatch, dnsNames, rangeFirstMatch_eq_find, List.find?_append]
  cases (n.Sets.Lookup env.SnoopedDNSNames).1.find? matchFn with
  | some h => rfl
  | none =>
    cases (n.Sets.Lookup env.ReverseDNSNames).1.find? matchFn with
    | some h => rfl
    | none => rfl

theorem DNSFirstMatch_true (env : Env) (n : Node) (matchFn : GoString → Bool)
    (h : GoString) (hfound : DNSFirstMatch env n matchFn = (h, true)) :
    h ∈ dnsNames env n ∧ matchFn h = true := by
  rw [DNSFirstMatch_eq_find] at hfound
  cases hf : (dnsNames env n).find? matchFn with
  | none => rw [hf] at hfound; simp at hfound
  | some x =>
    rw [hf] at hfound
    simp only [Prod.mk.injEq, and_true] at hfound
    subst hfound
    exact ⟨List.mem_of_find?_eq_some hf, List.find?_some hf⟩

theorem externalNodeID_true (env : Env) (n : Node) (addr : GoString) (localNets : Networks)
    (id : GoString) (h : externalNodeID env n addr localNets = (id, true)) :
    id = IncomingInternetID ∨ id = OutgoingInternetID ∨
      ∃ hostname ∈ dnsNames env n,
        env.isKnownService hostname = true ∧ id = env.ServiceNodeIDPrefix ++ hostname := by
  unfold externalNodeID at h
  rcases hd : DNSFirstMatch env n env.isKnownService with ⟨hostname, found⟩
  rw [hd] at h
  cases found with
  | true =>
    simp only [Prod.mk.injEq, and_true] at h
    obtain ⟨hm, hk⟩ := DNSFirstMatch_true env n env.isKnownService hostname hd
    exact Or.inr (Or.inr ⟨hostname, hm, hk, h.symm⟩)
  | false =>
    cases hip : env.ParseIP addr ipBuffer with
    | none => rw [hip] at h; simp at h
    | some ip =>
      rw [hip] at h
      cases hc : localNets.Contains ip with
      | true => simp [hc] at h
      | false =>
        simp only [hc, Bool.not_false, if_true] at h
        split at h
        · simp only [Prod.mk.injEq, and_true] at h
          exact Or.inl h.symm
        · simp only [Prod.mk.injEq, and_true] at h
          exact Or.inr (Or.inl h.symm)

theorem pseudoNodeID_cases (env : Env) (n : Node) (localNets : Networks) :
    pseudoNodeID env n localNets = ([], false) ∨
    ∃ addr id, externalNodeID env n addr localNets = (id, true) ∧
      pseudoNodeID env n localNets = (id, true) := by
  rcases hp : env.ParseEndpointNodeID n.ID with ⟨scope, addr, port, ok⟩
  cases ok with
  | false => left; simp only [pseudoNodeID, hp]
  | true =>
    rcases he : externalNodeID env n addr localNets with ⟨id, flag⟩
    cases flag with
    | false => left; simp only [pseudoNodeID, hp, he]
    | true => right; exact ⟨addr, id, he, by simp only [pseudoNodeID, hp, he]⟩

/-! ## The classifier: what it can return -/

/-- C11. Only known-service and internet classifications produce a pseudo node
ID: a true-flagged result is `in-theinternet`, `out-theinternet`, or the service
prefix followed by a snooped or reverse-resolved DNS name of the node that is a
known service; a false-flagged result carries the empty string. -/
theorem pseudoNodeID_service_or_internet (env : Env) (n : Node) (localNets : Networks) :
    (∀ id : GoString, pseudoNodeID env n localNets = (id, true) →
      id = lit "in-theinternet" ∨ id = lit "out-theinternet" ∨
      ∃ h : GoString,
        (h ∈ (n.Sets.Lookup env.SnoopedDNSNames).1 ∨ h ∈ (n.Sets.Lookup env.ReverseDNSNames).1) ∧
        env.isKnownService h = true ∧ id = env.ServiceNodeIDPrefix ++ h) ∧
    ((pseudoNodeID env n localNets).2 = false → (pseudoNodeID env n localNets).1 = []) := by
  constructor
  · intro id hid
    rcases pseudoNodeID_cases env n localNets with h0 | ⟨addr, id', hext, hps⟩
    · rw [h0] at hid; simp at hid
    · rw [hps] at hid
      simp only [Prod.mk.injEq, and_true] at hid
      subst hid
      rcases externalNodeID_true env n addr localNets id' hext with h1 | h2 | ⟨h, hm, hk, he⟩
      · exact Or.inl h1
      · exact Or.inr (Or.inl h2)
      · exact Or.inr (Or.inr ⟨h, List.mem_append.mp hm, hk, he⟩)
  · intro hflag
    rcases pseudoNodeID_cases env n localNets with h0 | ⟨addr, id', _, hps⟩
    · rw [h0]
    · rw [hps] at hflag; simp at hflag

/-- C11, at concrete inputs: a node with the snooped name `s3.amazonaws.com`
gets the ID `service-s3.amazonaws.com`, which is the third shape, and a node at
a local address with no known-service name gets the empty string with a false
flag. -/
theorem pseudoNodeID_service_or_internet_witness :
    pseudoNodeID Sample.env
      (Sample.node (lit ";10.1.2.3;443") [(lit "snooped_dns_names", [lit "s3.amazonaws.com"])] [])
      Sample.tenSlashEight = (lit "service-s3.amazonaws.com", true) ∧
    (lit "service-s3.amazonaws.com" = lit "in-theinternet" ∨
      lit "service-s3.amazonaws.com" = lit "out-theinternet" ∨
      ∃ h : GoString,
        (h ∈ ((Sample.node (lit ";10.1.2.3;443")
            [(lit "snooped_dns_names", [lit "s3.amazonaws.com"])] []).Sets.Lookup
              Sample.env.SnoopedDNSNames).1 ∨
          h ∈ ((Sample.node (lit ";10.1.2.3;443")
            [(lit "snooped_dns_names", [lit "s3.amazonaws.com"])] []).Sets.Lookup
              Sample.env.ReverseDNSNames).1) ∧
        Sample.env.isKnownService h = true ∧
        lit "service-s3.amazonaws.com" = Sample.env.ServiceNodeIDPrefix ++ h) ∧
    (pseudoNodeID Sample.env (Sample.node (lit ";10.1.2.3;443") [] [lit "x"])
      Sample.tenSlashEight).1 = [] :=
  ⟨by decide,
   (pseudoNodeID_service_or_internet Sample.env _ Sample.tenSlashEight).1
     (lit "service-s3.amazonaws.com") (by decide),
   (pseudoNodeID_service_or_internet Sample.env
     (Sample.node (lit ";10.1.2.3;443") [] [lit "x"]) Sample.tenSlashEight).2 (by decide)⟩

/-! ## The DNS name matcher -/

/-- C12. Reference definition of the matcher: the result is the first name
satisfying the predicate in the snooped names followed by the reverse-resolved
names, each in stored order, with a true flag (the empty string and false when
there is none); a returned name satisfies the predicate and belongs to one of
the two collections. -/
theorem DNSFirstMatch_first_in_stored_order (env : Env) (n : Node)
    (matchFn : GoString → Bool) :
    DNSFirstMatch env n matchFn =
      (match ((n.Sets.Lookup env.SnoopedDNSNames).1 ++
          (n.Sets.Lookup env.ReverseDNSNames).1).find? matchFn with
        | some hostname => (hostname, true)
        | none => ([], false)) ∧
    (∀ h : GoString, DNSFirstMatch env n matchFn = (h, true) →
      matchFn h = true ∧
      (h ∈ (n.Sets.Lookup env.SnoopedDNSNames).1 ∨ h ∈ (n.Sets.Lookup env.ReverseDNSNames).1)) := by
  refine ⟨DNSFirstMatch_eq_find env n matchFn, fun h hfound => ?_⟩
  obtain ⟨hm, hk⟩ := DNSFirstMatch_true env n matchFn h hfound
  exact ⟨hk, List.mem_append.mp hm⟩

/-- C12, at a concrete input: the stored order is kept, so with snooped names
`z.example.com`, `b.example.com` and reverse-resolved name `a.example.com`, a
predicate true on all of them selects `z.example.com`. -/
theorem DNSFirstMatch_first_in_stored_order_witness :
    DNSFirstMatch Sample.env
      (Sample.node (lit "n")
        [(lit "snooped_dns_names", [lit "z.example.com", lit "b.example.com"]),
         (lit "reverse_dns_names", [lit "a.example.com"])] [])
      (fun _ => true) = (lit "z.example.com", true) :=
  (DNSFirstMatch_first_in_stored_order Sample.env _ (fun _ => true)).1.trans (by decide)

/-- C13. DNS priority: when some snooped name satisfies the predicate, the
result is the first snooped name that does, with a true flag, whatever the
reverse-resolved collection holds. -/
theorem DNSFirstMatch_snooped_first (env : Env) (n : Node) (matchFn : GoString → Bool)
    (name : GoString) (hmem : name ∈ (n.Sets.Lookup env.SnoopedDNSNames).1)
    (hmatch : matchFn name = true) :
    ∃ h : GoString, (n.Sets.Lookup env.SnoopedDNSNames).1.find? matchFn = some h ∧
      DNSFirstMatch env n matchFn = (h, true) := by
  cases hf : (n.Sets.Lookup env.SnoopedDNSNames).1.find? matchFn with
  | none =>
    have hnone := List.find?_eq_none.mp hf name hmem
    exact absurd hmatch hnone
  | some h =>
    refine ⟨h, rfl, ?_⟩
    simp only [DNSFirstMatch, rangeFirstMatch_eq_find, hf]

/-- C13, at a concrete input: `s3.amazonaws.com` is snooped, and the
reverse-resolved collection holds the known service `www.googleapis.com` and
`a.example.com`, which sorts first; the snooped name is returned. -/
theorem DNSFirstMatch_snooped_first_witness :
    lit "s3.amazonaws.com" ∈
      ((Sample.node (lit "n")
        [(lit "reverse_dns_names", [lit "a.example.com", lit "www.googleapis.com"]),
         (lit "snooped_dns_names", [lit "k.example.com", lit "s3.amazonaws.com"])] []).Sets.Lookup
        Sample.env.SnoopedDNSNames).1 ∧
    Sample.isKnownService (lit "s3.amazonaws.com") = true ∧
    DNSFirstMatch Sample.env
      (Sample.node (lit "n")
        [(lit "reverse_dns_names", [lit "a.example.com", lit "www.googleapis.com"]),
         (lit "snooped_dns_names", [lit "k.example.com", lit "s3.amazonaws.com"])] [])
      Sample.isKnownService = (lit "s3.amazonaws.com", true) :=
  ⟨by decide, by decide,
   (DNSFirstMatch_snooped_first Sample.env
      (Sample.node (lit "n")
        [(lit "reverse_dns_names", [lit "a.example.com", lit "www.googleapis.com"]),
         (lit "snooped_dns_names", [lit "k.example.com", lit "s3.amazonaws.com"])] [])
      Sample.isKnownService (lit "s3.amazonaws.com") (by decide) (by decide)).elim
     (fun h hh => by
       have e : some h = some (lit "s3.amazonaws.com") := hh.1.symm.trans (by decide)
       cases e
       exact hh.2)⟩

/-- C14. The matcher returns the empty string with a false flag exactly when no
snooped name and no reverse-resolved name satisfies the predicate, an absent
collection counting as empty; a node with neither collection always gets that
result. -/
theorem DNSFirstMatch_not_found_iff (env : Env) (n : Node) (matchFn : GoString → Bool) :
    (DNSFirstMatch env n matchFn = ([], false) ↔
      (∀ name ∈ (n.Sets.Lookup env.SnoopedDNSNames).1, matchFn name = false) ∧
      (∀ name ∈ (n.Sets.Lookup env.ReverseDNSNames).1, matchFn name = false)) ∧
    (∀ key : GoString, n.Sets.entries.lookup key = none → (n.Sets.Lookup key).1 = []) ∧
    (n.Sets.entries = [] → DNSFirstMatch env n matchFn = ([], false)) := by
  refine ⟨⟨fun h => ?_, fun h => ?_⟩, fun key hkey => ?_, fun hempty => ?_⟩
  · rw [DNSFirstMatch_eq_find] at h
    cases hf : (dnsNames env n).find? matchFn with
    | some x => rw [hf] at h; simp at h
    | none =>
      have hall := List.find?_eq_none.mp hf
      constructor
      · intro name hm
        simpa using hall name (List.mem_append_left _ hm)
      · intro name hm
        simpa using hall name (List.mem_append_right _ hm)
  · apply DNSFirstMatch_none
    intro name hm
    rcases List.mem_append.mp hm with h1 | h2
    · exact h.1 name h1
    · exact h.2 name h2
  · simp only [Sets.Lookup, hkey]
  · apply DNSFirstMatch_none
    intro name hm
    simp [dnsNames, Sets.Lookup, hempty] at hm

/-- C14, at concrete inputs: a node with no collection at all, and a node whose
only collection is a reverse-resolved one without a known service, both get the
empty string and a false flag. -/
theorem DNSFirstMatch_not_found_iff_witness :
    DNSFirstMatch Sample.env (Sample.node (lit "n") [] []) Sample.isKnownService = ([], false) ∧
    DNSFirstMatch Sample.env
      (Sample.node (lit "n") [(lit "reverse_dns_names", [lit "a.example.com"])] [])
      Sample.isKnownService = ([], false) :=
  ⟨(DNSFirstMatch_not_found_iff Sample.env (Sample.node (lit "n") [] [])
      Sample.isKnownService).2.2 rfl,
   (DNSFirstMatch_not_found_iff Sample.env
      (Sample.node (lit "n") [(lit "reverse_dns_names", [lit "a.example.com"])] [])
      Sample.isKnownService).1.2 ⟨by decide, by decide⟩⟩

/-! ## The pseudo-node constructor -/

theorem NewDerivedNode_mem (id : GoString) (node c : Node) :
    c ∈ (NewDerivedNode id node).Children ↔ ((c ∈ node.Children ∧ c.ID ≠ node.ID) ∨ c = node) := by
  simp [NewDerivedNode, Node.WithChildren, NodeSet.Add, MakeNode]

/-- C15, as stated, fails: `outer` has the child `inner` under its own ID `a`;
the node derived from `outer` has the children `other` and `outer`, and `inner`,
a child of `outer`, is not among them. -/
theorem NewDerivedNode_children_counterexample :
    (NewDerivedNode (lit "derived") Sample.outer).Children = [Sample.other, Sample.outer] ∧
    ¬ (∀ c ∈ Sample.outer.Children,
        c ∈ (NewDerivedNode (lit "derived") Sample.outer).Children) := by
  have hc : (NewDerivedNode (lit "derived") Sample.outer).Children
      = [Sample.other, Sample.outer] := rfl
  refine ⟨hc, fun hall => ?_⟩
  have hmem : Sample.inner ∈ [Sample.other, Sample.outer] :=
    hc ▸ hall Sample.inner (List.mem_cons_self _ _)
  rcases List.mem_cons.mp hmem with h1 | h2
  · exact absurd (congrArg Node.ID h1) (by decide)
  · rcases List.mem_cons.mp h2 with h3 | h4
    · exact absurd (congrArg Node.Topology h3) (by decide)
    · exact absurd h4 (List.not_mem_nil _)

/-- C15, amended. The derived node is a fresh node with the given ID (no
topology tag, no collections, no adjacency). The original node is a child of
it; every child of the original whose ID differs from the original's ID is a
child of it; it has no other children; and when no child of the original carries
the original's ID, its children are exactly the original's children and the
original. The original is left unchanged: the child held under the original's
ID is the original itself, with the fields and the children it had. -/
theorem NewDerivedNode_children (id : GoString) (node : Node) :
    (NewDerivedNode id node).ID = id ∧
    (NewDerivedNode id node).Topology = [] ∧
    (NewDerivedNode id node).Sets.entries = [] ∧
    (NewDerivedNode id node).Adjacency = [] ∧
    node ∈ (NewDerivedNode id node).Children ∧
    (∀ c ∈ node.Children, c.ID ≠ node.ID → c ∈ (NewDerivedNode id node).Children) ∧
    (∀ c ∈ (NewDerivedNode id node).Children, c ∈ node.Children ∨ c = node) ∧
    ((∀ c ∈ node.Children, c.ID ≠ node.ID) →
      ∀ c : Node, c ∈ (NewDerivedNode id node).Children ↔ (c ∈ node.Children ∨ c = node)) ∧
    (∀ c ∈ (NewDerivedNode id node).Children, c.ID = node.ID → c = node) := by
  have hmem := NewDerivedNode_mem id node
  refine ⟨rfl, rfl, rfl, rfl, ?_, ?_, ?_, ?_, ?_⟩
  · exact (hmem node).mpr (Or.inr rfl)
  · intro c hc hne
    exact (hmem c).mpr (Or.inl ⟨hc, hne⟩)
  · intro c hc
    rcases (hmem c).mp hc with h1 | h2
    · exact Or.inl h1.1
    · exact Or.inr h2
  · intro hall c
    constructor
    · intro hc
      rcases (hmem c).mp hc with h1 | h2
      · exact Or.inl h1.1
      · exact Or.inr h2
    · intro hc
      rcases hc with h1 | h2
      · exact (hmem c).mpr (Or.inl ⟨h1, hall c h1⟩)
      · exact (hmem c).mpr (Or.inr h2)
  · intro c hc hid
    rcases (hmem c).mp hc with h1 | h2
    · exact absurd hid h1.2
    · exact h2

/-- C15, at concrete inputs: the node derived from `outer` holds `outer` and
`other`, whose ID differs from that of `outer`; the node derived from `other`,
which has no children, holds `other` alone. -/
theorem NewDerivedNode_children_witness :
    Sample.outer ∈ (NewDerivedNode (lit "derived") Sample.outer).Children ∧
    Sample.other ∈ (NewDerivedNode (lit "derived") Sample.outer).Children ∧
    (∀ c : Node, c ∈ (NewDerivedNode (lit "derived") Sample.other).Children ↔
      (c ∈ Sample.other.Children ∨ c = Sample.other)) :=
  ⟨(NewDerivedNode_children (lit "derived") Sample.outer).2.2.2.2.1,
   (NewDerivedNode_children (lit "derived") Sample.outer).2.2.2.2.2.1 Sample.other
     (List.mem_cons_of_mem _ (List.mem_cons_self _ _)) (by decide),
   (NewDerivedNode_children (lit "derived") Sample.other).2.2.2.2.2.2.2.1
     (fun c hc => absurd hc (List.not_mem_nil c))⟩

/-- C16. The derived pseudo node is the derived node with only the topology tag
changed, to the pseudo marker; the bare pseudo node has the given ID, the pseudo
marker, and no children, collections or adjacency. -/
theorem NewDerivedPseudoNode_frame (env : Env) (id : GoString) (node : Node) :
    (NewDerivedPseudoNode env id node).Topology = env.Pseudo ∧
    (NewDerivedPseudoNode env id node).ID = (NewDerivedNode id node).ID ∧
    (NewDerivedPseudoNode env id node).ID = id ∧
    (NewDerivedPseudoNode env id node).Children = (NewDerivedNode id node).Children ∧
    (NewDerivedPseudoNode env id node).Sets = (NewDerivedNode id node).Sets ∧
    (NewDerivedPseudoNode env id node).Adjacency = (NewDerivedNode id node).Adjacency ∧
    (newPseudoNode env id).ID = id ∧
    (newPseudoNode env id).Topology = env.Pseudo ∧
    (newPseudoNode env id).Children = [] ∧
    (newPseudoNode env id).Sets.entries = [] ∧
    (newPseudoNode env id).Adjacency = [] :=
  ⟨rfl, rfl, rfl, rfl, rfl, rfl, rfl, rfl, rfl, rfl, rfl⟩

/-! ## The classifier: not-external results -/

/-- C17. For a node none of whose DNS names is a known service and an address
on which the IP parser fails, the classifier returns the empty string with a
false flag, for every set of local networks. -/
theorem unparseable_address_not_external (env : Env) (n : Node) (addr : GoString)
    (localNets : Networks)
    (hno : ∀ name ∈ dnsNames env n, env.isKnownService name = false)
    (hfail : env.ParseIP addr ipBuffer = none) :
    externalNodeID env n addr localNets = ([], false) := by
  rw [externalNodeID_not_found env n addr localNets hno, hfail]

/-- C17, at concrete inputs: `not-an-ip` and `203.0.113` do not parse; a node
with adjacency and a DNS name that is no known service is not external at
either, also with no local network at all. -/
theorem unparseable_address_not_external_witness :
    Sample.env.ParseIP (lit "not-an-ip") ipBuffer = none ∧
    Sample.env.ParseIP (lit "203.0.113") ipBuffer = none ∧
    externalNodeID Sample.env
      (Sample.node (lit ";not-an-ip;80") [(lit "snooped_dns_names", [lit "a.example.com"])]
        [lit "x"])
      (lit "not-an-ip") Sample.tenSlashEight = ([], false) ∧
    externalNodeID Sample.env
      (Sample.node (lit ";203.0.113;80") [(lit "snooped_dns_names", [lit "a.example.com"])]
        [lit "x"])
      (lit "203.0.113") (Sample.networks []) = ([], false) :=
  ⟨by decide, by decide,
   unparseable_address_not_external Sample.env _ (lit "not-an-ip") Sample.tenSlashEight
     (by decide) (by decide),
   unparseable_address_not_external Sample.env _ (lit "203.0.113") (Sample.networks [])
     (by decide) (by decide)⟩

/-- C18. For a node none of whose DNS names is a known service and an address
that parses to an IP contained in the local networks, the classifier returns the
empty string with a false flag, whatever the node's adjacency is. -/
theorem local_address_not_external (env : Env) (n : Node) (addr : GoString)
    (localNets : Networks) (ip : IP)
    (hno : ∀ name ∈ dnsNames env n, env.isKnownService name = false)
    (hip : env.ParseIP addr ipBuffer = some ip)
    (hin : localNets.Contains ip = true) :
    externalNodeID env n addr localNets = ([], false) := by
  rw [externalNodeID_not_found env n addr localNets hno, hip]
  simp [hin]

/-- C18, at concrete inputs: `10.1.2.3` lies in `10.0.0.0/8`; a node with two
adjacencies and a node with none are both not external there. -/
theorem local_address_not_external_witness :
    Sample.env.ParseIP (lit "10.1.2.3") ipBuffer = some [10, 1, 2, 3] ∧
    Sample.tenSlashEight.Contains [10, 1, 2, 3] = true ∧
    externalNodeID Sample.env
      (Sample.node (lit ";10.1.2.3;80") [(lit "snooped_dns_names", [lit "a.example.com"])]
        [lit "x", lit "y"])
      (lit "10.1.2.3") Sample.tenSlashEight = ([], false) ∧
    externalNodeID Sample.env
      (Sample.node (lit ";10.1.2.3;80") [(lit "snooped_dns_names", [lit "a.example.com"])] [])
      (lit "10.1.2.3") Sample.tenSlashEight = ([], false) :=
  ⟨by decide, by decide,
   local_address_not_external Sample.env _ (lit "10.1.2.3") Sample.tenSlashEight [10, 1, 2, 3]
     (by decide) (by decide) (by decide),
   local_address_not_external Sample.env _ (lit "10.1.2.3") Sample.tenSlashEight [10, 1, 2, 3]
     (by decide) (by decide) (by decide)⟩

/-! ## The ID codec: edge cases and namespaces -/

theorem MakePseudoNodeID_cons (p : GoString) (ps : List GoString) :
    MakePseudoNodeID (p :: ps) = lit "pseudo" ++ lit ":" ++ strings.Join (p :: ps) (lit ":") := by
  simp only [MakePseudoNodeID, List.singleton_append]
  rw [strings.Join_cons_cons]

theorem MakeGroupNodeTopology_shape (originalTopology key : GoString) :
    MakeGroupNodeTopology originalTopology key
      = lit "group" ++ colon :: (originalTopology ++ colon :: key) := by
  simp [MakeGroupNodeTopology, strings.Join, lit_colon]

theorem MakePseudoNodeID_head (parts : List GoString) :
    (MakePseudoNodeID parts).head? = some 112 := by
  cases parts with
  | nil => decide
  | cons p ps => rw [MakePseudoNodeID_cons, lit_pseudo]; rfl

/-- C19. Zero parts: the made ID is exactly `pseudo`, which parses to itself
with a false flag; so the round trip holds for every part list of length at
least one and fails for the empty part list. -/
theorem make_parse_zero_parts :
    MakePseudoNodeID [] = lit "pseudo" ∧
    ParsePseudoNodeID (lit "pseudo") = (lit "pseudo", false) ∧
    (∀ parts : List GoString, 1 ≤ parts.length →
      ParsePseudoNodeID (MakePseudoNodeID parts) = (List.intercalate (lit ":") parts, true)) ∧
    ParsePseudoNodeID (MakePseudoNodeID []) ≠ (List.intercalate (lit ":") [], true) := by
  refine ⟨by decide, by decide, fun parts hlen => ?_, by decide⟩
  cases parts with
  | nil => simp at hlen
  | cons p ps =>
    rw [MakePseudoNodeID_cons, parse_pseudo_tagged, strings.Join_eq_intercalate]

/-- C20. The group and pseudo namespaces are disjoint: a group topology name
parses as a non-pseudo ID, returned unchanged with a false flag, and no pseudo
node ID equals a group topology name. -/
theorem group_pseudo_disjoint :
    (∀ originalTopology key : GoString,
      ParsePseudoNodeID (MakeGroupNodeTopology originalTopology key)
        = (MakeGroupNodeTopology originalTopology key, false)) ∧
    (∀ (parts : List GoString) (originalTopology key : GoString),
      MakePseudoNodeID parts ≠ MakeGroupNodeTopology originalTopology key) := by
  constructor
  · intro t k
    have hnot : colon ∉ lit "group" := by decide
    have htw := takeWhile_append_byte colon (lit "group") (t ++ colon :: k) hnot
    rw [ParsePseudoNodeID_eq, MakeGroupNodeTopology_shape, htw, if_neg]
    rintro ⟨_, hp⟩
    exact absurd hp (by decide)
  · intro parts t k heq
    have h1 := MakePseudoNodeID_head parts
    rw [heq, MakeGroupNodeTopology_shape] at h1
    have h2 : (lit "group" ++ colon :: (t ++ colon :: k)).head? = some 103 := rfl
    rw [h2] at h1
    exact absurd h1 (by decide)

/-- C20, at concrete inputs: the group name of `t1` and `k1`, and the group
name whose original topology is itself `pseudo`. -/
theorem group_pseudo_disjoint_witness :
    ParsePseudoNodeID (lit "group:t1:k1") = (lit "group:t1:k1", false) ∧
    ParsePseudoNodeID (lit "group:pseudo:k1") = (lit "group:pseudo:k1", false) ∧
    MakePseudoNodeID [lit "group", lit "t1", lit "k1"] ≠ lit "group:t1:k1" :=
  ⟨group_pseudo_disjoint.1 (lit "t1") (lit "k1"),
   group_pseudo_disjoint.1 (lit "pseudo") (lit "k1"),
   group_pseudo_disjoint.2 [lit "group", lit "t1", lit "k1"] (lit "t1") (lit "k1")⟩

end Render
